import Mathlib

/-!
Shallow embedding of `imp_layers_massvis.py` (MASSVIS importance-model data
loaders).  The file defines two Caffe data-layer classes,
`MassvisTrainDataLayerBubble` and `MassvisDataLayerBubble`, each with methods
`setup`, `reshape`, `forward`, `backward`, `load_image`, `load_label`.

Modelling choices:
- Pixel and mean values are modelled as exact rationals `ℚ`.  The float32
  cast of uint8 pixel data is exact; the threshold `255.0*2/3` evaluates to
  exactly `170.0` in IEEE double (510 and 3 are exact, 510/3 = 170 exactly),
  which coincides with the rational value `255*2/3 = 170`.
- A decoded image (the result of `np.array(Image.open(...))`) is either a
  2-D grayscale array or a 3-D array with 3 channels per pixel, which are the
  shapes the code is written for.
- `random.randint(0, n-1)` after `random.seed(seed)` is modelled by an
  abstract stream `rand : ℕ → ℕ` of draws from the seeded generator, reduced
  `% n` so each draw lies in `0..n-1`; the layer records the stream position.
- File I/O and PNG decoding are oracles: a filesystem `String → Option String`
  for the split file, and decode oracles `String → Decoded` /
  `String → List (List ℕ)` for image and label files.
- Fallible steps of `setup` (dict key lookups, file open, `randint` on an
  empty range) return `Except SetupError`.
-/

namespace Massvis

/-- A decoded input image: grayscale (2-D, height × width) or color
(3-D, height × width × 3 channels). -/
inductive Decoded where
  | gray (px : List (List ℚ))
  | color (px : List (List (List ℚ)))

/-- `ret[:, :, :] = in_[:, :, np.newaxis]` on a 2-D array: replicate the
grayscale value into 3 identical channels. -/
def gray3 (px : List (List ℚ)) : List (List (List ℚ)) :=
  px.map (fun row => row.map (fun v => [v, v, v]))

/-- `in_[:,:,::-1]`: reverse the channel order of every pixel (RGB → BGR). -/
def revChannels (px : List (List (List ℚ))) : List (List (List ℚ)) :=
  px.map (fun row => row.map List.reverse)

/-- `in_ -= self.mean`: subtract the mean vector channelwise from every
pixel (numpy broadcasting of a length-3 vector over an `h × w × 3` array). -/
def subMean (mean : List ℚ) (px : List (List (List ℚ))) : List (List (List ℚ)) :=
  px.map (fun row => row.map (fun p => List.zipWith (fun a b => a - b) p mean))

/-- `in_.transpose((2,0,1))`: channel × height × width order.  The arrays the
code produces here always have 3 trailing channels. -/
def toCHW (px : List (List (List ℚ))) : List (List (List ℚ)) :=
  (List.range 3).map (fun c => px.map (fun row => row.map (fun p => p.getD c 0)))

/-- The `if len(in_.shape) < 3` branch of `load_image`: a 2-D input is
replicated into 3 channels, a 3-D input is kept. -/
def expand3 : Decoded → List (List (List ℚ))
  | .gray px => gray3 px
  | .color px => px

/-- The image preprocessing pipeline shared by both `load_image` bodies:
cast to float, replicate grayscale, reverse channels, subtract mean,
transpose to channel × height × width. -/
def imageTransform (mean : List ℚ) (im : Decoded) : List (List (List ℚ)) :=
  toCHW (subMean mean (revChannels (expand3 im)))

/-- A label pixel after `load_label`: a numpy boolean (binarize branch) or a
float (normalize branch). -/
inductive LabelVal where
  | b (v : Bool)
  | q (v : ℚ)
deriving DecidableEq, Repr

/-- Per-pixel label transform: `label > 255.0*2/3` when binarizing, else
`label / 255.0`.  `255*2/3 = 170` exactly, in ℚ as in IEEE double. -/
def labelPixel (binarize : Bool) (v : ℕ) : LabelVal :=
  if binarize then .b (decide ((v : ℚ) > 255 * 2 / 3)) else .q ((v : ℚ) / 255)

/-- The label pipeline shared by both `load_label` bodies: per-pixel
transform, then `label[np.newaxis, ...]` adds a leading singleton dimension. -/
def labelTransform (binarize : Bool) (px : List (List ℕ)) :
    List (List (List LabelVal)) :=
  [px.map (fun row => row.map (labelPixel binarize))]

/-- Python `str.splitlines` restricted to the terminators `\n`, `\r`,
`\r\n` (the ones occurring in the index text files): split on line
boundaries, dropping the terminators; a trailing terminator does not
produce a final empty line. -/
def splitlinesAux : List Char → List Char → List String
  | [], acc => if acc.isEmpty then [] else [String.mk acc.reverse]
  | '\r' :: '\n' :: rest, acc => String.mk acc.reverse :: splitlinesAux rest []
  | '\r' :: rest, acc => String.mk acc.reverse :: splitlinesAux rest []
  | '\n' :: rest, acc => String.mk acc.reverse :: splitlinesAux rest []
  | c :: rest, acc => splitlinesAux rest (c :: acc)

/-- `open(split_f, 'r').read().splitlines()` on the file's content. -/
def splitlines (s : String) : List String :=
  splitlinesAux s.toList []

/-- Python `'train' in split`: substring test. -/
def hasTrain (split : String) : Bool :=
  decide (List.IsInfix "train".toList split.toList)

/-- `'{}/massvis/{}.txt'.format(self.maindir, self.split)`. -/
def pathOf (maindir split : String) : String :=
  maindir ++ "/massvis/" ++ split ++ ".txt"

/-- The parameter dictionary obtained from `eval(self.param_str)`:
`None` marks an absent key (Python raises `KeyError` on `params[k]` for the
required keys; `params.get` supplies a default for the optional ones). -/
structure Params where
  dir? : Option String
  split? : Option String
  mean? : Option (List ℚ)
  randomize? : Option Bool
  seed? : Option (Option ℕ)
  binarize? : Option Bool

/-- The error paths of `setup`: missing dict key, the two explicit wiring
exceptions, a missing split file, and `random.randint(0, -1)` on an empty
index list. -/
inductive SetupError where
  | keyError (key : String)
  | needTwoTops
  | noBottom
  | fileNotFound (path : String)
  | emptyRange
deriving DecidableEq, Repr

/-- The layer's instance state after `setup` (and, after `reshape`, the
cached `self.data` / `self.label` pair).  `rpos` is the position in the
seeded random stream (how many `random.randint` draws have been made). -/
structure Layer where
  maindir : String
  split : String
  mean : List ℚ
  random : Bool
  seed : Option ℕ
  binarize : Bool
  indices : List String
  idx : ℕ
  rpos : ℕ
  data : List (List (List ℚ)) := []
  label : List (List (List LabelVal)) := []

/-- A top blob: its shape as set by `top[i].reshape(...)`. -/
structure Blob where
  shape : List ℕ
deriving DecidableEq, Repr

/-- The state built by the tail of `setup`: `self.idx = 0`, then
`self.random = False` unless `'train' in split`, then in random mode a
seeded draw `randint(0, len(indices)-1)` replaces `idx`. -/
def setupState (maindir split : String) (mean : List ℚ) (randomize : Bool)
    (seed : Option ℕ) (binarize : Bool) (indices : List String)
    (rand : ℕ → ℕ) : Layer :=
  let random1 := if hasTrain split then randomize else false
  { maindir, split, mean, random := random1, seed, binarize, indices,
    idx := if random1 then rand 0 % indices.length else 0,
    rpos := if random1 then 1 else 0 }

/-- Body of `setup`, shared by the two classes up to the directory key
(`'train_dir'` / `'val_dir'`): read the config from the parameter dict,
check the wiring (two tops, no bottoms), read and split the index file,
then initialise `idx` (seeded random draw in random mode). -/
def setupAux (dirKey : String) (p : Params) (nBottom nTop : ℕ)
    (fs : String → Option String) (rand : ℕ → ℕ) : Except SetupError Layer :=
  match p.dir? with
  | none => .error (.keyError dirKey)
  | some maindir =>
  match p.split? with
  | none => .error (.keyError "split")
  | some split =>
  match p.mean? with
  | none => .error (.keyError "mean")
  | some mean =>
  let randomize := p.randomize?.getD true
  let seed := p.seed?.getD none
  match p.binarize? with
  | none => .error (.keyError "binarize")
  | some binarize =>
  if nTop ≠ 2 then .error .needTwoTops
  else if nBottom ≠ 0 then .error .noBottom
  else
  match fs (pathOf maindir split) with
  | none => .error (.fileNotFound (pathOf maindir split))
  | some content =>
  let indices := splitlines content
  if (if hasTrain split then randomize else false) && indices.isEmpty then
    .error .emptyRange
  else
    .ok (setupState maindir split mean randomize seed binarize indices rand)

/-- `'{maindir}/massvis/{sub}/{name}.png'` — image and label file paths
(`sub` is `train`/`train_imp` for the train layer, `valid`/`valid_imp` for
the validation layer). -/
def pngPath (maindir sub name : String) : String :=
  maindir ++ "/massvis/" ++ sub ++ "/" ++ name ++ ".png"

/-- Rectangular shape of a 3-D array (the numpy `.shape` of the arrays
produced by `load_image` / `load_label`). -/
def shape3 {α : Type} (x : List (List (List α))) : List ℕ :=
  [x.length, (x.headD []).length, ((x.headD []).headD []).length]

/-- Body of `reshape`, shared by the two classes up to the image/label
directories: load the (image, label) pair for `indices[idx]` into
`self.data` / `self.label`, then set each top's shape with a leading batch
dimension of 1. -/
def reshapeAux (imgDir labDir : String) (st : Layer)
    (dec : String → Decoded) (lab : String → List (List ℕ))
    (top : List Blob) : Layer × List Blob :=
  let name := st.indices.getD st.idx ""
  let data := imageTransform st.mean (dec (pngPath st.maindir imgDir name))
  let label := labelTransform st.binarize (lab (pngPath st.maindir labDir name))
  ({ st with data := data, label := label },
   (top.set 0 ⟨1 :: shape3 data⟩).set 1 ⟨1 :: shape3 label⟩)

/-- Body of `forward`, identical in the two classes: copy the cached pair
into the tops' data (not modelled beyond the blobs themselves), then pick
the next index — a fresh seeded draw in random mode, else `idx + 1`
wrapping to 0 at `len(indices)`. -/
def forwardAux (st : Layer) (rand : ℕ → ℕ) : Layer :=
  if st.random then
    { st with idx := rand st.rpos % st.indices.length, rpos := st.rpos + 1 }
  else
    { st with idx := if st.idx + 1 = st.indices.length then 0 else st.idx + 1 }

/-- `forward` iterated `m` times. -/
def forwardN (rand : ℕ → ℕ) (st : Layer) : ℕ → Layer
  | 0 => st
  | m + 1 => forwardAux (forwardN rand st m) rand

namespace MassvisTrainDataLayerBubble

/-- `MassvisTrainDataLayerBubble.setup`: reads `params['train_dir']`,
`params['split']`, `params['mean']`, `params.get('randomize', True)`,
`params.get('seed', None)`, `params['binarize']`, checks the wiring,
loads `{maindir}/massvis/{split}.txt`, and initialises the index. -/
def setup (p : Params) (nBottom nTop : ℕ) (fs : String → Option String)
    (rand : ℕ → ℕ) : Except SetupError Layer :=
  setupAux "train_dir" p nBottom nTop fs rand

/-- `MassvisTrainDataLayerBubble.reshape`: images from `massvis/train/`,
labels from `massvis/train_imp/`. -/
def reshape (st : Layer) (dec : String → Decoded)
    (lab : String → List (List ℕ)) (top : List Blob) : Layer × List Blob :=
  reshapeAux "train" "train_imp" st dec lab top

/-- `MassvisTrainDataLayerBubble.forward`: assign the cached pair to the
tops, then advance the index. -/
def forward (st : Layer) (rand : ℕ → ℕ) : Layer :=
  forwardAux st rand

/-- `MassvisTrainDataLayerBubble.backward`: `pass`. -/
def backward {β γ : Type} (st : Layer) (top : List β)
    (propagate_down : List Bool) (bottom : List γ) :
    Layer × List β × List γ :=
  (st, top, bottom)

/-- `MassvisTrainDataLayerBubble.load_image` applied to the decoded pixel
data of `{maindir}/massvis/train/{idx}.png`: cast to float, replicate a
grayscale image into 3 channels, reverse channels RGB → BGR, subtract the
mean, transpose to channel × height × width.  The method writes no instance
attribute, so the layer state is returned unchanged. -/
def load_image (st : Layer) (im : Decoded) :
    (List (List (List ℚ))) × Layer :=
  (toCHW (subMean st.mean (revChannels (expand3 im))), st)

/-- `MassvisTrainDataLayerBubble.load_label` applied to the decoded uint8
pixel data of `{maindir}/massvis/train_imp/{idx}.png`: binarize at
`255*2/3` or normalize by `255.0`, then add a leading singleton dimension.
The method writes no instance attribute, so the layer state is returned
unchanged. -/
def load_label (st : Layer) (px : List (List ℕ)) :
    (List (List (List LabelVal))) × Layer :=
  ([px.map (fun row => row.map (labelPixel st.binarize))], st)

end MassvisTrainDataLayerBubble

namespace MassvisDataLayerBubble

/-- `MassvisDataLayerBubble.setup`: identical to the train layer's `setup`
except that the directory comes from `params['val_dir']`. -/
def setup (p : Params) (nBottom nTop : ℕ) (fs : String → Option String)
    (rand : ℕ → ℕ) : Except SetupError Layer :=
  setupAux "val_dir" p nBottom nTop fs rand

/-- `MassvisDataLayerBubble.reshape`: images from `massvis/valid/`,
labels from `massvis/valid_imp/`. -/
def reshape (st : Layer) (dec : String → Decoded)
    (lab : String → List (List ℕ)) (top : List Blob) : Layer × List Blob :=
  reshapeAux "valid" "valid_imp" st dec lab top

/-- `MassvisDataLayerBubble.forward`: assign the cached pair to the tops,
then advance the index. -/
def forward (st : Layer) (rand : ℕ → ℕ) : Layer :=
  forwardAux st rand

/-- `MassvisDataLayerBubble.backward`: `pass`. -/
def backward {β γ : Type} (st : Layer) (top : List β)
    (propagate_down : List Bool) (bottom : List γ) :
    Layer × List β × List γ :=
  (st, top, bottom)

/-- `MassvisDataLayerBubble.load_image` applied to the decoded pixel data of
`{maindir}/massvis/valid/{idx}.png`: same transform as the train layer's
`load_image` (the commented-out alpha-channel block in the source is inert). -/
def load_image (st : Layer) (im : Decoded) :
    (List (List (List ℚ))) × Layer :=
  (toCHW (subMean st.mean (revChannels (expand3 im))), st)

/-- `MassvisDataLayerBubble.load_label` applied to the decoded uint8 pixel
data of `{maindir}/massvis/valid_imp/{idx}.png`. -/
def load_label (st : Layer) (px : List (List ℕ)) :
    (List (List (List LabelVal))) × Layer :=
  ([px.map (fun row => row.map (labelPixel st.binarize))], st)

end MassvisDataLayerBubble

/-! Concrete inputs used by witnesses and counterexamples. -/

/-- A concrete mean vector. -/
def wMean : List ℚ := [10, 20, 30]

/-- A concrete post-setup layer state (non-random validation split). -/
def wLayer : Layer :=
  { maindir := "d", split := "val", mean := wMean, random := false,
    seed := none, binarize := false, indices := ["a", "b"], idx := 0,
    rpos := 0 }

/-- A concrete, fully populated parameter dictionary. -/
def wParams : Params :=
  { dir? := some "d", split? := some "val", mean? := some wMean,
    randomize? := some false, seed? := some none, binarize? := some false }

/-- The same dictionary with the required key `'binarize'` missing. -/
def wParamsNoBin : Params :=
  { dir? := some "d", split? := some "val", mean? := some wMean,
    randomize? := some false, seed? := some none, binarize? := none }

/-- A parameter dictionary for a randomized training split. -/
def wParamsTrain : Params :=
  { dir? := some "d", split? := some "train", mean? := some wMean,
    randomize? := some true, seed? := some (some 7), binarize? := some true }

/-- A concrete filesystem holding the two index files. -/
def wFs : String → Option String := fun s =>
  if s = "d/massvis/val.txt" then some "a\nb\n"
  else if s = "d/massvis/train.txt" then some "x\ny\nz\n"
  else none

/-- A concrete stream of draws from the seeded random generator. -/
def wRand : ℕ → ℕ := fun k => 2 * k + 5

/-- A concrete image-decode oracle: every path decodes to the same 1×1
color image. -/
def wDec : String → Decoded := fun _ => .color [[[1, 2, 3]]]

/-- A concrete label-decode oracle: every path decodes to the same 1×2
uint8 image. -/
def wLab : String → List (List ℕ) := fun _ => [[0, 200]]

/-- The state produced by a successful validation-split `setup` on the
concrete inputs above. -/
def wStVal : Layer := setupState "d" "val" wMean false none false ["a", "b"] wRand

/-- The state produced by a successful randomized training-split `setup`
on the concrete inputs above. -/
def wStTrain : Layer :=
  setupState "d" "train" wMean true (some 7) true ["x", "y", "z"] wRand

/-! Helper lemmas about the image pipeline. -/

theorem getD_map_lt {α β : Type} (f : α → β) (l : List α) (i : ℕ)
    (h : i < l.length) (d : β) (d0 : α) :
    (l.map f).getD i d = f (l.getD i d0) := by
  rw [List.getD_eq_getElem _ _ (by simpa using h), List.getD_eq_getElem _ _ h,
    List.getElem_map]

theorem length_revChannels (px : List (List (List ℚ))) :
    (revChannels px).length = px.length := by
  simp [revChannels]

theorem getD_revChannels_length (px : List (List (List ℚ))) (i : ℕ)
    (hi : i < px.length) :
    ((revChannels px).getD i []).length = (px.getD i []).length := by
  unfold revChannels
  rw [getD_map_lt _ _ i hi _ []]
  simp

theorem length_subMean (mean : List ℚ) (px : List (List (List ℚ))) :
    (subMean mean px).length = px.length := by
  simp [subMean]

theorem getD_subMean_length (mean : List ℚ) (px : List (List (List ℚ)))
    (i : ℕ) (hi : i < px.length) :
    ((subMean mean px).getD i []).length = (px.getD i []).length := by
  unfold subMean
  rw [getD_map_lt _ _ i hi _ []]
  simp

theorem toCHW_length (px : List (List (List ℚ))) : (toCHW px).length = 3 := by
  simp [toCHW]

theorem toCHW_getD (px : List (List (List ℚ))) (c i j : ℕ)
    (hc : c < 3) (hi : i < px.length) (hj : j < (px.getD i []).length) :
    (((toCHW px).getD c []).getD i []).getD j 0
      = ((px.getD i []).getD j []).getD c 0 := by
  have h1 : (toCHW px).getD c []
      = px.map (fun row => row.map (fun p => p.getD c 0)) := by
    unfold toCHW
    rw [getD_map_lt _ _ c (by simpa using hc) _ 0]
    congr 1
    rw [List.getD_eq_getElem _ _ (by simpa using hc)]
    simp
  rw [h1, getD_map_lt _ _ i hi _ [], getD_map_lt _ _ j hj _ []]

theorem subMean_getD (mean : List ℚ) (px : List (List (List ℚ))) (i j : ℕ)
    (hi : i < px.length) (hj : j < (px.getD i []).length) :
    ((subMean mean px).getD i []).getD j []
      = List.zipWith (fun a b => a - b) ((px.getD i []).getD j []) mean := by
  unfold subMean
  rw [getD_map_lt _ _ i hi _ [], getD_map_lt _ _ j hj _ []]

theorem revChannels_getD (px : List (List (List ℚ))) (i j : ℕ)
    (hi : i < px.length) (hj : j < (px.getD i []).length) :
    ((revChannels px).getD i []).getD j []
      = ((px.getD i []).getD j []).reverse := by
  unfold revChannels
  rw [getD_map_lt _ _ i hi _ [], getD_map_lt _ _ j hj _ []]

theorem zipWith_sub_getD (p mean : List ℚ) (c : ℕ)
    (hc1 : c < p.length) (hc2 : c < mean.length) :
    (List.zipWith (fun a b => a - b) p mean).getD c 0
      = p.getD c 0 - mean.getD c 0 := by
  rw [List.getD_eq_getElem _ _ (by simp [List.length_zipWith]; omega),
      List.getD_eq_getElem _ _ hc1, List.getD_eq_getElem _ _ hc2,
      List.getElem_zipWith]

theorem reverse_getD3 (p : List ℚ) (c : ℕ) (hp : p.length = 3) (hc : c < 3) :
    p.reverse.getD c 0 = p.getD (2 - c) 0 := by
  rw [List.getD_eq_getElem _ _ (by simp; omega),
      List.getD_eq_getElem _ _ (by omega), List.getElem_reverse]
  congr 1
  omega

/-- Pointwise value of the image pipeline on a 3-channel color image:
`out[c][i][j] = px[i][j][2-c] - mean[c]` (BGR reversal, mean subtraction,
CHW transpose). -/
theorem imageTransform_color_getD (mean : List ℚ) (px : List (List (List ℚ)))
    (i j c : ℕ) (hm : mean.length = 3) (hi : i < px.length)
    (hj : j < (px.getD i []).length)
    (hp : ((px.getD i []).getD j []).length = 3) (hc : c < 3) :
    (((imageTransform mean (.color px)).getD c []).getD i []).getD j 0
      = ((px.getD i []).getD j []).getD (2 - c) 0 - mean.getD c 0 := by
  have hi2 : i < (subMean mean (revChannels px)).length := by
    rw [length_subMean, length_revChannels]; exact hi
  have hj2 : j < ((subMean mean (revChannels px)).getD i []).length := by
    rw [getD_subMean_length _ _ i (by rw [length_revChannels]; exact hi),
        getD_revChannels_length _ i hi]
    exact hj
  show (((toCHW (subMean mean (revChannels px))).getD c []).getD i []).getD j 0 = _
  rw [toCHW_getD _ c i j hc hi2 hj2,
      subMean_getD _ _ i j (by rw [length_revChannels]; exact hi)
        (by rw [getD_revChannels_length _ i hi]; exact hj),
      revChannels_getD _ i j hi hj,
      zipWith_sub_getD _ _ c (by rw [List.length_reverse, hp]; exact hc) (by omega),
      reverse_getD3 _ c hp hc]

/-- Pointwise value of the image pipeline on a grayscale image:
`out[c][i][j] = px[i][j] - mean[c]` for each of the 3 replicated channels. -/
theorem imageTransform_gray_getD (mean : List ℚ) (px : List (List ℚ))
    (i j c : ℕ) (hm : mean.length = 3) (hi : i < px.length)
    (hj : j < (px.getD i []).length) (hc : c < 3) :
    (((imageTransform mean (.gray px)).getD c []).getD i []).getD j 0
      = (px.getD i []).getD j 0 - mean.getD c 0 := by
  have hg1 : i < (gray3 px).length := by simpa [gray3] using hi
  have hg2 : ((gray3 px).getD i []).length = (px.getD i []).length := by
    unfold gray3
    rw [getD_map_lt _ _ i hi _ []]
    simp
  have hg3 : ((gray3 px).getD i []).getD j []
      = [((px.getD i []).getD j 0), ((px.getD i []).getD j 0),
         ((px.getD i []).getD j 0)] := by
    unfold gray3
    rw [getD_map_lt _ _ i hi _ [], getD_map_lt _ _ j hj _ 0]
  have key := imageTransform_color_getD mean (gray3 px) i j c hm hg1
    (by rw [hg2]; exact hj) (by rw [hg3]; rfl) hc
  have heq : imageTransform mean (.gray px) = imageTransform mean (.color (gray3 px)) := rfl
  rw [heq, key, hg3]
  interval_cases c <;> rfl

/-! Helper lemmas about `setup` and the index state machine. -/

/-- Inversion of a successful `setup`: the configuration keys were present,
the wiring was correct, the split file existed, and the resulting state is
`setupState` of the extracted configuration. -/
theorem setupAux_ok_inv (dirKey : String) (p : Params) (nB nT : ℕ)
    (fs : String → Option String) (rand : ℕ → ℕ) (st : Layer)
    (hok : setupAux dirKey p nB nT fs rand = .ok st) :
    ∃ maindir split mean bz content,
      p.dir? = some maindir ∧ p.split? = some split ∧ p.mean? = some mean
      ∧ p.binarize? = some bz ∧ fs (pathOf maindir split) = some content
      ∧ nT = 2 ∧ nB = 0
      ∧ ((if hasTrain split then p.randomize?.getD true else false) = true →
          splitlines content ≠ [])
      ∧ st = setupState maindir split mean (p.randomize?.getD true)
          (p.seed?.getD none) bz (splitlines content) rand := by
  unfold setupAux at hok
  cases hmd : p.dir? with
  | none =>
      simp only [hmd] at hok
      exact Except.noConfusion hok
  | some maindir =>
  simp only [hmd] at hok
  cases hsp : p.split? with
  | none =>
      simp only [hsp] at hok
      exact Except.noConfusion hok
  | some split =>
  simp only [hsp] at hok
  cases hmn : p.mean? with
  | none =>
      simp only [hmn] at hok
      exact Except.noConfusion hok
  | some mean =>
  simp only [hmn] at hok
  cases hbz : p.binarize? with
  | none =>
      simp only [hbz] at hok
      exact Except.noConfusion hok
  | some bz =>
  simp only [hbz] at hok
  by_cases hT : nT = 2
  · rw [if_neg (by omega)] at hok
    by_cases hB : nB = 0
    · rw [if_neg (by omega)] at hok
      cases hfs : fs (pathOf maindir split) with
      | none =>
          simp only [hfs] at hok
          exact Except.noConfusion hok
      | some content =>
      simp only [hfs] at hok
      by_cases hr : ((if hasTrain split then p.randomize?.getD true else false)
          && (splitlines content).isEmpty) = true
      · rw [if_pos hr] at hok
        exact absurd hok (by simp)
      · rw [if_neg hr] at hok
        refine ⟨maindir, split, mean, bz, content, rfl, rfl, rfl, rfl, hfs,
          hT, hB, ?_, ?_⟩
        · intro h1
          rw [h1] at hr
          simpa using hr
        · cases hok
          rfl
    · rw [if_pos (by omega)] at hok
      exact absurd hok (by simp)
  · rw [if_pos (by omega)] at hok
    exact absurd hok (by simp)

/-- Fields of the state built by `setup`. -/
theorem setupState_fields (maindir split : String) (mean : List ℚ)
    (randomize : Bool) (seed : Option ℕ) (binarize : Bool)
    (indices : List String) (rand : ℕ → ℕ) :
    (setupState maindir split mean randomize seed binarize indices rand).random
        = (if hasTrain split then randomize else false)
    ∧ (setupState maindir split mean randomize seed binarize indices rand).indices
        = indices
    ∧ (setupState maindir split mean randomize seed binarize indices rand).idx
        = (if (if hasTrain split then randomize else false) = true
            then rand 0 % indices.length else 0)
    ∧ (setupState maindir split mean randomize seed binarize indices rand).rpos
        = (if (if hasTrain split then randomize else false) = true
            then 1 else 0) := by
  unfold setupState
  refine ⟨rfl, rfl, ?_, ?_⟩ <;> split <;> simp_all

/-- Random-mode step of `forward`: a fresh seeded draw modulo the list
length. -/
theorem forwardAux_random (st : Layer) (rand : ℕ → ℕ) (hr : st.random = true) :
    forwardAux st rand
      = { st with idx := rand st.rpos % st.indices.length,
                  rpos := st.rpos + 1 } := by
  unfold forwardAux
  rw [hr]
  simp

/-- Sequential step of `forward`: increment and wrap at the list length. -/
theorem forwardAux_seq (st : Layer) (rand : ℕ → ℕ) (hr : st.random = false) :
    forwardAux st rand
      = { st with idx := if st.idx + 1 = st.indices.length then 0
                         else st.idx + 1 } := by
  unfold forwardAux
  rw [hr]
  simp

/-- `forward` never changes `random` or `indices`; iterating it does not
either. -/
theorem forwardN_fields (rand : ℕ → ℕ) (st : Layer) (m : ℕ) :
    (forwardN rand st m).random = st.random
    ∧ (forwardN rand st m).indices = st.indices := by
  induction m with
  | zero => exact ⟨rfl, rfl⟩
  | succ m ih =>
    constructor
    · show (forwardAux (forwardN rand st m) rand).random = _
      unfold forwardAux
      split
      · exact ih.1
      · exact ih.1
    · show (forwardAux (forwardN rand st m) rand).indices = _
      unfold forwardAux
      split
      · exact ih.2
      · exact ih.2

/-- The Python wrap-around `idx += 1; if idx == n: idx = 0` is addition
modulo `n` on indices below `n`. -/
theorem succ_wrap_mod (n m : ℕ) (hn : n ≠ 0) :
    (if m % n + 1 = n then 0 else m % n + 1) = (m + 1) % n := by
  have h1 : m % n < n := Nat.mod_lt _ (Nat.pos_of_ne_zero hn)
  have e : (m + 1) % n = (m % n + 1) % n := (Nat.mod_add_mod m n 1).symm
  by_cases h : m % n + 1 = n
  · rw [if_pos h, e, h, Nat.mod_self]
  · rw [if_neg h, e]
    exact (Nat.mod_eq_of_lt (by omega)).symm

/-- Sequential mode: starting from index 0, the index after `m` forward
calls is `m % n` — the samples are visited in listing order, cyclically. -/
theorem forwardN_seq_idx (rand : ℕ → ℕ) (st : Layer) (hr : st.random = false)
    (h0 : st.idx = 0) (hn : st.indices ≠ []) (m : ℕ) :
    (forwardN rand st m).idx = m % st.indices.length := by
  have hn0 : st.indices.length ≠ 0 := fun h => hn (List.length_eq_zero.mp h)
  induction m with
  | zero =>
    show st.idx = 0 % st.indices.length
    rw [h0, Nat.zero_mod]
  | succ m ih =>
    have hf := forwardN_fields rand st m
    have step : forwardN rand st (m + 1) = forwardAux (forwardN rand st m) rand := rfl
    rw [step, forwardAux_seq _ _ (by rw [hf.1, hr])]
    show (if (forwardN rand st m).idx + 1 = (forwardN rand st m).indices.length
          then 0 else (forwardN rand st m).idx + 1) = _
    rw [ih, hf.2]
    exact succ_wrap_mod _ _ hn0

/-- Random mode: each forward call makes one fresh draw from the seeded
stream and reduces it modulo `n`. -/
theorem forwardN_random_idx (rand : ℕ → ℕ) (st : Layer)
    (hr : st.random = true) (m : ℕ) :
    (forwardN rand st m).rpos = st.rpos + m
    ∧ ∀ k, m = k + 1 →
      (forwardN rand st m).idx = rand (st.rpos + k) % st.indices.length := by
  induction m with
  | zero => exact ⟨rfl, fun k hk => absurd hk (by omega)⟩
  | succ m ih =>
    have hf := forwardN_fields rand st m
    have step : forwardN rand st (m + 1) = forwardAux (forwardN rand st m) rand := rfl
    constructor
    · rw [step, forwardAux_random _ _ (by rw [hf.1, hr])]
      show (forwardN rand st m).rpos + 1 = st.rpos + (m + 1)
      rw [ih.1]
      omega
    · intro k hk
      have hkm : k = m := by omega
      subst hkm
      rw [step, forwardAux_random _ _ (by rw [hf.1, hr])]
      show rand (forwardN rand st k).rpos % (forwardN rand st k).indices.length
            = rand (st.rpos + k) % st.indices.length
      rw [ih.1, hf.2]

/-! Helper lemmas about `splitlines`. -/

theorem mk_toList (s : String) : String.mk s.toList = s := rfl

/-- Consuming one terminator-free line followed by a newline emits that
line (prefixed by the pending accumulator) and continues. -/
theorem splitlinesAux_line (l : List Char) (rest : List Char) (acc : List Char)
    (hl : ∀ ch ∈ l, ch ≠ '\n' ∧ ch ≠ '\r') :
    splitlinesAux (l ++ '\n' :: rest) acc
      = String.mk (acc.reverse ++ l) :: splitlinesAux rest [] := by
  induction l generalizing acc with
  | nil => simp [splitlinesAux]
  | cons c cs ih =>
    have hc := hl c (List.mem_cons_self _ _)
    have hstep : splitlinesAux (c :: (cs ++ '\n' :: rest)) acc
        = splitlinesAux (cs ++ '\n' :: rest) (c :: acc) := by
      rw [splitlinesAux.eq_def]
      split
      · simp_all
      · rename_i heq
        rw [List.cons_eq_cons] at heq
        exact absurd heq.1 hc.2
      · rename_i heq
        rw [List.cons_eq_cons] at heq
        exact absurd heq.1 hc.2
      · rename_i heq
        rw [List.cons_eq_cons] at heq
        exact absurd heq.1 hc.1
      · rename_i heq
        rw [List.cons_eq_cons] at heq
        rw [heq.1, heq.2]
    show splitlinesAux (c :: cs ++ '\n' :: rest) acc = _
    rw [List.cons_append, hstep,
      ih (c :: acc) (fun ch hch => hl ch (List.mem_cons_of_mem _ hch))]
    simp

/-- `splitlines` of a concatenation of newline-terminated, terminator-free
lines is exactly that list of lines, in order. -/
theorem splitlinesAux_join (lines : List String)
    (h : ∀ l ∈ lines, ∀ ch ∈ l.toList, ch ≠ '\n' ∧ ch ≠ '\r') :
    splitlinesAux ((lines.map (fun t => t.toList ++ ['\n'])).flatten) [] = lines := by
  induction lines with
  | nil => rfl
  | cons l ls ih =>
    have e : ((l :: ls).map (fun t => t.toList ++ ['\n'])).flatten
        = l.toList ++ '\n' :: ((ls.map (fun t => t.toList ++ ['\n'])).flatten) := by
      simp [List.flatten, List.append_assoc]
    rw [e, splitlinesAux_line _ _ [] (h l (List.mem_cons_self _ _))]
    rw [List.reverse_nil, List.nil_append, mk_toList,
      ih (fun t ht => h t (List.mem_cons_of_mem _ ht))]

/-- With a well-formed configuration and correct wiring, `setup` succeeds
and produces `setupState` of the configuration. -/
theorem setupAux_ok_of (dirKey : String) (p : Params)
    (fs : String → Option String) (rand : ℕ → ℕ)
    (maindir split : String) (mean : List ℚ) (bz : Bool) (content : String)
    (hmd : p.dir? = some maindir) (hsp : p.split? = some split)
    (hmn : p.mean? = some mean) (hbz : p.binarize? = some bz)
    (hfs : fs (pathOf maindir split) = some content)
    (hne : ((if hasTrain split then p.randomize?.getD true else false)
        && (splitlines content).isEmpty) = false) :
    setupAux dirKey p 0 2 fs rand
      = .ok (setupState maindir split mean (p.randomize?.getD true)
          (p.seed?.getD none) bz (splitlines content) rand) := by
  unfold setupAux
  simp only [hmd, hsp, hmn, hbz, hfs]
  rw [if_neg (by omega), if_neg (by omega), hne]
  simp

/-- `setup` succeeds exactly when the wiring is correct, provided the
configuration itself is well formed (required keys present, split file
readable, non-empty index list when randomizing). -/
theorem setupAux_ok_iff (dirKey : String) (p : Params) (nB nT : ℕ)
    (fs : String → Option String) (rand : ℕ → ℕ)
    (maindir split : String) (mean : List ℚ) (bz : Bool) (content : String)
    (hmd : p.dir? = some maindir) (hsp : p.split? = some split)
    (hmn : p.mean? = some mean) (hbz : p.binarize? = some bz)
    (hfs : fs (pathOf maindir split) = some content)
    (hne : ((if hasTrain split then p.randomize?.getD true else false)
        && (splitlines content).isEmpty) = false) :
    (∃ st, setupAux dirKey p nB nT fs rand = .ok st) ↔ (nT = 2 ∧ nB = 0) := by
  constructor
  · rintro ⟨st, hst⟩
    obtain ⟨_, _, _, _, _, _, _, _, _, _, hT, hB, _, _⟩ :=
      setupAux_ok_inv _ _ _ _ _ _ _ hst
    exact ⟨hT, hB⟩
  · rintro ⟨rfl, rfl⟩
    exact ⟨_, setupAux_ok_of dirKey p fs rand maindir split mean bz content
      hmd hsp hmn hbz hfs hne⟩

/-! Claim theorems. -/

/-- C1: for every decoded input image, `load_image` (of either class)
returns the pixel array with channel order reversed (RGB → BGR), the
configured mean subtracted per channel, transposed to
channel × height × width; a 2-D grayscale input is first replicated into 3
identical channels, and the result always has exactly 3 leading channels.
Pointwise: `out[c][i][j] = px[i][j][2-c] - mean[c]` for color inputs and
`out[c][i][j] = px[i][j] - mean[c]` for grayscale inputs. -/
theorem load_image_spec (st : Layer) (im : Decoded) :
    ((MassvisTrainDataLayerBubble.load_image st im).1.length = 3
      ∧ (MassvisDataLayerBubble.load_image st im).1.length = 3)
    ∧ (∀ px i j c, im = Decoded.color px → st.mean.length = 3 →
        i < px.length → j < (px.getD i []).length →
        ((px.getD i []).getD j []).length = 3 → c < 3 →
        ((((MassvisTrainDataLayerBubble.load_image st im).1.getD c []).getD i []).getD j 0
            = ((px.getD i []).getD j []).getD (2 - c) 0 - st.mean.getD c 0)
        ∧ (((MassvisDataLayerBubble.load_image st im).1.getD c []).getD i []).getD j 0
            = ((px.getD i []).getD j []).getD (2 - c) 0 - st.mean.getD c 0)
    ∧ (∀ px i j c, im = Decoded.gray px → st.mean.length = 3 →
        i < px.length → j < (px.getD i []).length → c < 3 →
        ((((MassvisTrainDataLayerBubble.load_image st im).1.getD c []).getD i []).getD j 0
            = (px.getD i []).getD j 0 - st.mean.getD c 0)
        ∧ (((MassvisDataLayerBubble.load_image st im).1.getD c []).getD i []).getD j 0
            = (px.getD i []).getD j 0 - st.mean.getD c 0) := by
  refine ⟨⟨toCHW_length _, toCHW_length _⟩, ?_, ?_⟩
  · rintro px i j c rfl hm hi hj hp hc
    exact ⟨imageTransform_color_getD st.mean px i j c hm hi hj hp hc,
           imageTransform_color_getD st.mean px i j c hm hi hj hp hc⟩
  · rintro px i j c rfl hm hi hj hc
    exact ⟨imageTransform_gray_getD st.mean px i j c hm hi hj hc,
           imageTransform_gray_getD st.mean px i j c hm hi hj hc⟩

/-- Witness for C1: a concrete 1×1 color image, mean `[10, 20, 30]`;
channel 0 of the output is the blue value 3 minus mean 10. -/
theorem load_image_spec_witness :
    wLayer.mean.length = 3
    ∧ (((MassvisTrainDataLayerBubble.load_image wLayer
          (Decoded.color [[[1, 2, 3]]])).1.getD 0 []).getD 0 []).getD 0 0
        = -7 := by
  have h := ((load_image_spec wLayer (Decoded.color [[[1, 2, 3]]])).2.1
    [[[1, 2, 3]]] 0 0 0 rfl (by decide) (by decide) (by decide) (by decide)
    (by decide)).1
  refine ⟨by decide, ?_⟩
  rw [h]
  norm_num [wLayer, wMean]

/-- C2: for every decoded uint8 label image, `load_label` (of either class)
returns an array with one leading singleton dimension; per pixel, the
binarize branch yields the boolean of `pixel > 255*2/3` (true exactly for
values 171 and above), and the normalize branch yields `pixel / 255.0`,
which lies in `[0, 1]`. -/
theorem load_label_spec (st : Layer) (px : List (List ℕ)) :
    ((MassvisTrainDataLayerBubble.load_label st px).1.length = 1
      ∧ (MassvisDataLayerBubble.load_label st px).1.length = 1)
    ∧ ((MassvisTrainDataLayerBubble.load_label st px).1.getD 0 []
        = px.map (fun row => row.map (labelPixel st.binarize))
      ∧ (MassvisDataLayerBubble.load_label st px).1.getD 0 []
        = px.map (fun row => row.map (labelPixel st.binarize)))
    ∧ (∀ v : ℕ, labelPixel true v = .b (decide (171 ≤ v)))
    ∧ (∀ v : ℕ, v ≤ 255 →
        labelPixel false v = .q ((v : ℚ) / 255)
        ∧ 0 ≤ (v : ℚ) / 255 ∧ (v : ℚ) / 255 ≤ 1) := by
  refine ⟨⟨rfl, rfl⟩, ⟨rfl, rfl⟩, ?_, ?_⟩
  · intro v
    unfold labelPixel
    rw [if_pos rfl]
    congr 1
    rw [decide_eq_decide]
    have h170 : (255 * 2 / 3 : ℚ) = 170 := by norm_num
    rw [h170]
    constructor
    · intro h
      have : (170 : ℕ) < v := by exact_mod_cast h
      omega
    · intro h
      have : (170 : ℕ) < v := by omega
      exact_mod_cast this
  · intro v hv
    refine ⟨rfl, by positivity, ?_⟩
    rw [div_le_one (by norm_num)]
    exact_mod_cast hv

/-- Witness for C2: pixel value 200 with `binarize = False` maps to
`200/255 ∈ [0,1]`. -/
theorem load_label_spec_witness :
    labelPixel false 200 = .q ((200 : ℚ) / 255)
    ∧ 0 ≤ (200 : ℚ) / 255 ∧ (200 : ℚ) / 255 ≤ 1 :=
  (load_label_spec wLayer [[0, 200]]).2.2.2 200 (by decide)

/-- C3: when the split does not contain `'train'`, `setup` forces
non-random mode and `idx = 0`, and each `forward` advances `idx` by one,
wrapping to 0 after the last index (so after `m` calls `idx = m % n`,
a deterministic cyclic visit in file-listing order); when the split
contains `'train'` and randomize is enabled, `setup` draws `idx` from the
seeded generator (`rand 0 % n`) and the `m+1`-st `forward` uses the next
draw `rand (m+1) % n`, always in `0..n-1`.  Stated over `setupAux` (the
shared body of both classes' `setup`) and iterated `forward`. -/
theorem indexing_modes (dirKey : String) (p : Params) (nB nT : ℕ)
    (fs : String → Option String) (rand : ℕ → ℕ) (st : Layer)
    (sp : String) (hsp : p.split? = some sp)
    (hok : setupAux dirKey p nB nT fs rand = .ok st)
    (hne : st.indices ≠ []) :
    (hasTrain sp = false →
      st.random = false ∧ st.idx = 0
      ∧ (∀ m, (forwardN rand st m).idx = m % st.indices.length)
      ∧ ∀ m, (forwardN rand st (m + 1)).idx
          = (if (forwardN rand st m).idx + 1 = st.indices.length then 0
             else (forwardN rand st m).idx + 1))
    ∧ (hasTrain sp = true → p.randomize?.getD true = true →
      st.random = true ∧ st.idx = rand 0 % st.indices.length
      ∧ ∀ m, (forwardN rand st (m + 1)).idx
          = rand (m + 1) % st.indices.length) := by
  obtain ⟨md, sp2, mean, bz, content, hmd2, hsp2, hmn2, hbz2, hfs2, hT, hB,
    hne2, hst⟩ := setupAux_ok_inv _ _ _ _ _ _ _ hok
  rw [hsp] at hsp2
  have hsp3 : sp = sp2 := Option.some.inj hsp2
  subst hsp3
  have hflds := setupState_fields md sp mean (p.randomize?.getD true)
    (p.seed?.getD none) bz (splitlines content) rand
  constructor
  · intro hnt
    have hrand : st.random = false := by
      rw [hst, hflds.1, hnt]
      simp
    have hidx : st.idx = 0 := by
      rw [hst, hflds.2.2.1, hnt]
      simp
    refine ⟨hrand, hidx, forwardN_seq_idx rand st hrand hidx hne, ?_⟩
    intro m
    have hf := forwardN_fields rand st m
    have step : forwardN rand st (m + 1) = forwardAux (forwardN rand st m) rand := rfl
    rw [step, forwardAux_seq _ _ (by rw [hf.1, hrand])]
    show (if (forwardN rand st m).idx + 1 = (forwardN rand st m).indices.length
          then 0 else (forwardN rand st m).idx + 1) = _
    rw [hf.2]
  · intro hnt hrz
    have hcond : (if hasTrain sp = true then p.randomize?.getD true else false)
        = true := by
      rw [hnt, hrz]
      simp
    have hrand : st.random = true := by
      rw [hst, hflds.1]
      exact hcond
    have hidx : st.idx = rand 0 % st.indices.length := by
      rw [hst, hflds.2.2.1, hcond]
      have : (setupState md sp mean (p.randomize?.getD true)
          (p.seed?.getD none) bz (splitlines content) rand).indices
          = splitlines content := hflds.2.1
      rw [this]
      simp
    have hrpos : st.rpos = 1 := by
      rw [hst, hflds.2.2.2, hcond]
      simp
    refine ⟨hrand, hidx, ?_⟩
    intro m
    have h := (forwardN_random_idx rand st hrand (m + 1)).2 m rfl
    rw [h, hrpos, Nat.add_comm 1 m]

/-- Witness for C3: the concrete validation split `'val'` (non-random):
after setup `idx = 0`, and after 3 forward calls on the two-element index
list `idx = 3 % 2 = 1`. -/
theorem indexing_modes_witness :
    wStVal.random = false ∧ wStVal.idx = 0
    ∧ (forwardN wRand wStVal 3).idx = 3 % wStVal.indices.length := by
  have h := (indexing_modes "val_dir" wParams 0 2 wFs wRand wStVal "val" rfl
    (by rfl) (by decide)).1 (by decide)
  exact ⟨h.1, h.2.1, h.2.2.1 3⟩

/-- C4 counterexample: with correct wiring (2 tops, 0 bottoms) but the
required key `'binarize'` missing from the parameter dict, `setup` still
raises (`KeyError`), refuting "setup raises an exception if and only if
the number of tops is not 2 or the number of bottoms is not 0". -/
theorem setup_error_paths_cex :
    MassvisTrainDataLayerBubble.setup wParamsNoBin 0 2 wFs wRand
      = .error (.keyError "binarize") := rfl

/-- C4 amended: provided the configuration itself is well formed (required
keys present, split file readable, index list non-empty when randomizing),
`setup` of either class succeeds if and only if the wiring is correct
(exactly 2 tops and 0 bottoms); otherwise `setup` can also fail on the
missing key, the missing file, or the empty random range. -/
theorem setup_error_characterization (p : Params) (nB nT : ℕ)
    (fs : String → Option String) (rand : ℕ → ℕ)
    (maindir split : String) (mean : List ℚ) (bz : Bool) (content : String)
    (hmd : p.dir? = some maindir) (hsp : p.split? = some split)
    (hmn : p.mean? = some mean) (hbz : p.binarize? = some bz)
    (hfs : fs (pathOf maindir split) = some content)
    (hne : ((if hasTrain split then p.randomize?.getD true else false)
        && (splitlines content).isEmpty) = false) :
    ((∃ st, MassvisTrainDataLayerBubble.setup p nB nT fs rand = .ok st)
      ↔ (nT = 2 ∧ nB = 0))
    ∧ ((∃ st, MassvisDataLayerBubble.setup p nB nT fs rand = .ok st)
      ↔ (nT = 2 ∧ nB = 0)) :=
  ⟨setupAux_ok_iff "train_dir" p nB nT fs rand maindir split mean bz content
      hmd hsp hmn hbz hfs hne,
   setupAux_ok_iff "val_dir" p nB nT fs rand maindir split mean bz content
      hmd hsp hmn hbz hfs hne⟩

/-- Witness for the amended C4: on the concrete well-formed validation
configuration with correct wiring `(0, 2)`, both setups succeed. -/
theorem setup_error_characterization_witness :
    (MassvisTrainDataLayerBubble.setup wParams 0 2 wFs wRand).isOk = true
    ∧ (MassvisDataLayerBubble.setup wParams 0 2 wFs wRand).isOk = true := by
  have h := setup_error_characterization wParams 0 2 wFs wRand "d" "val" wMean
    false "a\nb\n" rfl rfl rfl rfl (by decide) (by decide)
  obtain ⟨st1, hst1⟩ := h.1.mpr ⟨rfl, rfl⟩
  obtain ⟨st2, hst2⟩ := h.2.mpr ⟨rfl, rfl⟩
  rw [hst1, hst2]
  exact ⟨rfl, rfl⟩

/-- C5: the train loader and the validation loader are duplicates of one
component: on the same state and decoded data, `load_image`, `load_label`,
`forward` and `backward` agree, and the two `setup`/`reshape` differ only
in the configuration key (`'train_dir'` vs `'val_dir'`) and the
image/label directories (`train`/`train_imp` vs `valid`/`valid_imp`). -/
theorem train_val_duplicates :
    (∀ st im, MassvisTrainDataLayerBubble.load_image st im
        = MassvisDataLayerBubble.load_image st im)
    ∧ (∀ st px, MassvisTrainDataLayerBubble.load_label st px
        = MassvisDataLayerBubble.load_label st px)
    ∧ (∀ st rand, MassvisTrainDataLayerBubble.forward st rand
        = MassvisDataLayerBubble.forward st rand)
    ∧ (∀ (β γ : Type) (st : Layer) (t : List β) (pd : List Bool)
        (b : List γ), MassvisTrainDataLayerBubble.backward st t pd b
        = MassvisDataLayerBubble.backward st t pd b)
    ∧ (∀ p nB nT fs rand,
        MassvisTrainDataLayerBubble.setup p nB nT fs rand
          = setupAux "train_dir" p nB nT fs rand
        ∧ MassvisDataLayerBubble.setup p nB nT fs rand
          = setupAux "val_dir" p nB nT fs rand)
    ∧ (∀ st dec lab top,
        MassvisTrainDataLayerBubble.reshape st dec lab top
          = reshapeAux "train" "train_imp" st dec lab top
        ∧ MassvisDataLayerBubble.reshape st dec lab top
          = reshapeAux "valid" "valid_imp" st dec lab top) :=
  ⟨fun _ _ => rfl, fun _ _ => rfl, fun _ _ => rfl, fun _ _ _ _ _ _ => rfl,
   fun _ _ _ _ _ => ⟨rfl, rfl⟩, fun _ _ _ _ => ⟨rfl, rfl⟩⟩

/-- C6: every `reshape` call (of either class) loads exactly one
(image, label) pair — both at the single identifier `indices[idx]` — into
the layer's `data`/`label`, and sets `top[0]`'s shape to `(1, *data.shape)`
and `top[1]`'s shape to `(1, *label.shape)`: the batch dimension is
always 1. -/
theorem reshape_spec (st : Layer) (dec : String → Decoded)
    (lab : String → List (List ℕ)) (top : List Blob)
    (hlen : top.length = 2) :
    ((MassvisTrainDataLayerBubble.reshape st dec lab top).1.data
        = (MassvisTrainDataLayerBubble.load_image st
            (dec (pngPath st.maindir "train" (st.indices.getD st.idx "")))).1
      ∧ (MassvisTrainDataLayerBubble.reshape st dec lab top).1.label
        = (MassvisTrainDataLayerBubble.load_label st
            (lab (pngPath st.maindir "train_imp" (st.indices.getD st.idx "")))).1
      ∧ (MassvisTrainDataLayerBubble.reshape st dec lab top).2
        = [⟨1 :: shape3 (MassvisTrainDataLayerBubble.reshape st dec lab top).1.data⟩,
           ⟨1 :: shape3 (MassvisTrainDataLayerBubble.reshape st dec lab top).1.label⟩])
    ∧ ((MassvisDataLayerBubble.reshape st dec lab top).1.data
        = (MassvisDataLayerBubble.load_image st
            (dec (pngPath st.maindir "valid" (st.indices.getD st.idx "")))).1
      ∧ (MassvisDataLayerBubble.reshape st dec lab top).1.label
        = (MassvisDataLayerBubble.load_label st
            (lab (pngPath st.maindir "valid_imp" (st.indices.getD st.idx "")))).1
      ∧ (MassvisDataLayerBubble.reshape st dec lab top).2
        = [⟨1 :: shape3 (MassvisDataLayerBubble.reshape st dec lab top).1.data⟩,
           ⟨1 :: shape3 (MassvisDataLayerBubble.reshape st dec lab top).1.label⟩]) := by
  obtain ⟨a, b, rfl⟩ := List.length_eq_two.mp hlen
  exact ⟨⟨rfl, rfl, rfl⟩, ⟨rfl, rfl, rfl⟩⟩

/-- Witness for C6: a concrete layer, decode oracles and a two-blob top
list; the tops' shapes get the leading batch dimension 1. -/
theorem reshape_spec_witness :
    (MassvisTrainDataLayerBubble.reshape wLayer wDec wLab [⟨[]⟩, ⟨[]⟩]).2
      = [⟨1 :: shape3 (MassvisTrainDataLayerBubble.reshape wLayer wDec wLab
            [⟨[]⟩, ⟨[]⟩]).1.data⟩,
         ⟨1 :: shape3 (MassvisTrainDataLayerBubble.reshape wLayer wDec wLab
            [⟨[]⟩, ⟨[]⟩]).1.label⟩] :=
  (reshape_spec wLayer wDec wLab [⟨[]⟩, ⟨[]⟩] rfl).1.2.2

/-- C7: a successful `setup` sets `indices` to exactly the lines of the
text file `{maindir}/massvis/{split}.txt`, split on line boundaries with
the terminators removed, in file order.  Stated over `setupAux`, the
shared body of both classes' `setup`. -/
theorem setup_indices_spec (dirKey : String) (p : Params) (nB nT : ℕ)
    (fs : String → Option String) (rand : ℕ → ℕ) (st : Layer)
    (maindir sp : String)
    (hmd : p.dir? = some maindir) (hsp : p.split? = some sp)
    (hok : setupAux dirKey p nB nT fs rand = .ok st) :
    ∃ content, fs (maindir ++ "/massvis/" ++ sp ++ ".txt") = some content
      ∧ st.indices = splitlines content
      ∧ ∀ lines : List String,
          content.toList = (lines.map (fun t => t.toList ++ ['\n'])).flatten →
          (∀ l ∈ lines, ∀ ch ∈ l.toList, ch ≠ '\n' ∧ ch ≠ '\r') →
          st.indices = lines := by
  obtain ⟨md, sp2, mean, bz, content, hmd2, hsp2, hmn2, hbz2, hfs2, _, _, _,
    hst⟩ := setupAux_ok_inv _ _ _ _ _ _ _ hok
  rw [hmd] at hmd2
  rw [hsp] at hsp2
  have h1 : maindir = md := Option.some.inj hmd2
  have h2 : sp = sp2 := Option.some.inj hsp2
  subst h1
  subst h2
  have hind : st.indices = splitlines content := by
    rw [hst]
    exact (setupState_fields _ _ _ _ _ _ _ _).2.1
  refine ⟨content, hfs2, hind, ?_⟩
  intro lines hcontent hfree
  rw [hind]
  unfold splitlines
  rw [hcontent]
  exact splitlinesAux_join lines hfree

/-- Witness for C7: the concrete file content `"a\nb\n"` yields the index
list `["a", "b"]`. -/
theorem setup_indices_spec_witness : wStVal.indices = ["a", "b"] := by
  obtain ⟨content, hfs, hind, hlines⟩ := setup_indices_spec "val_dir" wParams
    0 2 wFs wRand wStVal "d" "val" rfl rfl (by rfl)
  have hc : content = "a\nb\n" := by
    have : some "a\nb\n" = some content := by rw [← hfs]; rfl
    exact (Option.some.inj this).symm
  subst hc
  exact hlines ["a", "b"] (by decide) (by decide)

/-- C8: `load_image` and `load_label` of either class are stateless: they
return the layer state unchanged (hence every configuration and index
field — maindir, split, mean, random, seed, binarize, indices, idx — is
unchanged). -/
theorem load_stateless (st : Layer) (im : Decoded) (px : List (List ℕ)) :
    (MassvisTrainDataLayerBubble.load_image st im).2 = st
    ∧ (MassvisTrainDataLayerBubble.load_label st px).2 = st
    ∧ (MassvisDataLayerBubble.load_image st im).2 = st
    ∧ (MassvisDataLayerBubble.load_label st px).2 = st :=
  ⟨rfl, rfl, rfl, rfl⟩

/-- Step preservation of the index bound by one `forward` call. -/
theorem forwardAux_idx_lt (st : Layer) (rand : ℕ → ℕ)
    (h : st.idx < st.indices.length) :
    (forwardAux st rand).idx < (forwardAux st rand).indices.length := by
  unfold forwardAux
  split
  · show rand st.rpos % st.indices.length < st.indices.length
    exact Nat.mod_lt _ (by omega)
  · show (if st.idx + 1 = st.indices.length then 0 else st.idx + 1)
        < st.indices.length
    split
    · omega
    · omega

/-- C9: provided the index list loaded at setup is non-empty,
`0 ≤ idx < len(indices)` holds after `setup` and is preserved by every
`forward` call in either mode, so `indices[idx]` in `reshape` is always in
bounds (`m = 0` is the post-setup state). -/
theorem idx_in_bounds (dirKey : String) (p : Params) (nB nT : ℕ)
    (fs : String → Option String) (rand : ℕ → ℕ) (st : Layer)
    (hok : setupAux dirKey p nB nT fs rand = .ok st)
    (hne : st.indices ≠ []) (m : ℕ) :
    (forwardN rand st m).idx < (forwardN rand st m).indices.length := by
  obtain ⟨md, sp, mean, bz, content, _, _, _, _, _, _, _, _, hst⟩ :=
    setupAux_ok_inv _ _ _ _ _ _ _ hok
  have hflds := setupState_fields md sp mean (p.randomize?.getD true)
    (p.seed?.getD none) bz (splitlines content) rand
  have hn0 : (splitlines content).length ≠ 0 := by
    intro h0
    apply hne
    rw [hst, hflds.2.1]
    exact List.length_eq_zero.mp h0
  have hbase : st.idx < st.indices.length := by
    rw [hst, hflds.2.2.1, hflds.2.1]
    by_cases hcond : (if hasTrain sp = true then p.randomize?.getD true
        else false) = true
    · rw [if_pos hcond]
      exact Nat.mod_lt _ (by omega)
    · rw [if_neg hcond]
      omega
  induction m with
  | zero => exact hbase
  | succ m ih =>
    exact forwardAux_idx_lt (forwardN rand st m) rand ih

/-- Witness for C9: the concrete randomized training setup; after 2
forward calls the index is still below the 3-element list length. -/
theorem idx_in_bounds_witness :
    (forwardN wRand wStTrain 2).idx < (forwardN wRand wStTrain 2).indices.length :=
  idx_in_bounds "train_dir" wParamsTrain 0 2 wFs wRand wStTrain (by rfl)
    (by decide) 2

/-- C10: `backward` of either class is a no-op: it returns the layer state
and the top and bottom blobs unchanged, for every input. -/
theorem backward_noop {β γ : Type} (st : Layer) (top : List β)
    (pd : List Bool) (bottom : List γ) :
    MassvisTrainDataLayerBubble.backward st top pd bottom = (st, top, bottom)
    ∧ MassvisDataLayerBubble.backward st top pd bottom = (st, top, bottom) :=
  ⟨rfl, rfl⟩

end Massvis
